import Mathlib

/-!
Shallow embedding of `src/validator.py` (a deterministic design-system linter
for generated Angular components) and proofs about its claims.

Python strings are modelled as `String`/`List Char`, the token dictionary as an
association list with fallible lookup (`Option` models a raised `KeyError`),
and every regex of the source is modelled by an explicit scanning function that
mirrors the regex's (backtracking) semantics on the pattern actually used.
-/

/-! ## Basic string helpers (Python `str.lower`, `in`, dict access) -/

/-- Python `str.lower()` on one character (ASCII, as in `Char.toLower`). -/
def lowerChar (c : Char) : Char := Char.toLower c

/-- Python `str.lower()`: lowercase every character. -/
def strLower (s : String) : String := ⟨s.data.map lowerChar⟩

/-- Whether `needle` occurs as a contiguous substring of `hay` (Python `in`). -/
def substrIn : List Char → List Char → Bool
  | n, [] => n.isPrefixOf []
  | n, h :: t => n.isPrefixOf (h :: t) || substrIn n t

/-- Python `needle in hay` on strings. -/
def pyIn (needle hay : String) : Bool := substrIn needle.data hay.data

/-- The token dictionary loaded from design-system.json: an association list. -/
abbrev Dict := List (String × String)

/-- Python `tokens[k]`: `none` models a raised `KeyError`. -/
def dictGet (d : Dict) (k : String) : Option String :=
  (d.find? (fun p => p.1 == k)).map (fun p => p.2)

/-- Python `tokens.get(k, dflt)`: never raises. -/
def dictGetD (d : Dict) (k : String) (dflt : String) : String :=
  (dictGet d k).getD dflt

/-- Python's `\s` class (and `str.strip` default): ASCII whitespace. -/
def pySpace (c : Char) : Bool :=
  c = ' ' || c = '\t' || c = '\n' || c = '\r' || c = '\x0b' || c = '\x0c'

/-- Python's `\w` class (ASCII): letters, digits, underscore. -/
def wordChar (c : Char) : Bool := c.isAlpha || c.isDigit || c = '_'

/-- A hex digit, the character class `[0-9a-fA-F]`. -/
def hexDigitCh (c : Char) : Bool :=
  c.isDigit || ('a' ≤ c && c ≤ 'f') || ('A' ≤ c && c ≤ 'F')

/-- The word-boundary `\b` placed after a word character: the next character
    (head of the remaining input) must not be a word character. -/
def noWordAhead (cs : List Char) : Bool :=
  match cs.head? with
  | none => true
  | some d => !wordChar d

/-- Case-insensitive match of the fixed word `pat` (given lowercase) at the
    start of `cs`, as a regex alternative under `re.IGNORECASE`. -/
def matchCI (pat : List Char) (cs : List Char) : Bool :=
  decide ((cs.take pat.length).map lowerChar = pat)

/-! ## Sub-validator 1 — design-token presence (`validate_design_tokens`) -/

/-- Message for a missing primary colour (`MISSING_PRIMARY_COLOR`). -/
def msgMissingPrimary (primary : String) : String :=
  "MISSING_PRIMARY_COLOR: The primary colour '" ++ primary ++
    "' was not found in the generated component. It must be applied to at least one interactive or accent element."

/-- Message for a missing border radius (`MISSING_BORDER_RADIUS`). -/
def msgMissingRadius (radius : String) : String :=
  "MISSING_BORDER_RADIUS: The design-system border-radius '" ++ radius ++
    "' was not found in the component styles. Apply it to cards, inputs, and buttons."

/-- Message for a missing font family (`MISSING_FONT_FAMILY`). -/
def msgMissingFont (font : String) : String :=
  "MISSING_FONT_FAMILY: The design-system font-family '" ++ font ++
    "' was not found in the component styles. Set font-family: '" ++ font ++
    "', sans-serif on the host or wrapper element."

/-- `validate_design_tokens(code, tokens)`: presence of primary colour
    (case-insensitive), border radius (exact), font family (case-insensitive).
    `none` models the `KeyError` a missing dictionary key raises. -/
def validate_design_tokens (code : String) (tokens : Dict) : Option (List String) := do
  let primaryRaw ← dictGet tokens "primary_color"
  let primary := strLower primaryRaw
  let e1 : List String :=
    if pyIn primary (strLower code) then [] else [msgMissingPrimary primaryRaw]
  let radius ← dictGet tokens "border_radius"
  let e2 : List String :=
    if pyIn radius code then [] else [msgMissingRadius radius]
  let font ← dictGet tokens "font_family"
  let e3 : List String :=
    if pyIn (strLower font) (strLower code) then [] else [msgMissingFont font]
  pure (e1 ++ (e2 ++ e3))

example : validate_design_tokens "color: #ABC; radius 4px; Inter"
    [("primary_color", "#abc"), ("border_radius", "4px"), ("font_family", "inter")] =
    some [] := by decide

example : validate_design_tokens "nothing here"
    [("primary_color", "#abc"), ("border_radius", "4px"), ("font_family", "Inter")] =
    some [msgMissingPrimary "#abc", msgMissingRadius "4px", msgMissingFont "Inter"] := by decide

/-! ## Sub-validator 2 — strict colour enforcement (`validate_colors`) -/

/-- The forbidden named CSS colours (`_NAMED_COLORS` in the source). -/
def namedColorsList : List String :=
  ["red", "blue", "green", "yellow", "orange", "pink", "purple",
   "brown", "cyan", "magenta", "lime", "teal", "maroon", "navy",
   "olive", "aqua", "fuchsia", "coral", "crimson", "gold",
   "indigo", "khaki", "lavender", "salmon", "sienna", "tan",
   "tomato", "turquoise", "violet", "wheat"]

/-- The exempt keywords (`_SAFE_CSS_KEYWORDS` in the source). -/
def safeCssKeywords : List String :=
  ["transparent", "inherit", "currentcolor", "initial", "unset", "none"]

/-- The alternatives of `(rgba?|hsla?|hwb)`, longer alternative first so the
    union of prefix matches equals the regex's backtracking behaviour. -/
def funcNames : List String := ["rgba", "rgb", "hsla", "hsl", "hwb"]

/-- Tail `\s*\(` of the functional-notation pattern. -/
def spacesThenParen (cs : List Char) : Bool :=
  decide ((cs.dropWhile pySpace).head? = some '(')

/-- A match of `(rgba?|hsla?|hwb)\s*\(` (ignoring case) starting at `cs`. -/
def funcAt (cs : List Char) : Bool :=
  funcNames.any (fun n => matchCI n.data cs && spacesThenParen (cs.drop n.data.length))

/-- `re.search` for a pattern starting with `\b` followed by a word character:
    scan every position, requiring the previous character not to be a word
    character (`prevW` tracks that; the start of input is a boundary). -/
def searchB (f : List Char → Bool) : Bool → List Char → Bool
  | _, [] => false
  | prevW, c :: rest => (!prevW && f (c :: rest)) || searchB f (wordChar c) rest

/-- Rule 1 of `validate_colors`: `re.search(r"\b(rgba?|hsla?|hwb)\s*\(", code, re.IGNORECASE)`. -/
def hasFuncColor (code : String) : Bool := searchB funcAt false code.data

/-- Message for rule 1 (`UNAUTHORIZED_COLOR_FORMAT`). -/
def msgFuncColor (primary secondary : String) : String :=
  "UNAUTHORIZED_COLOR_FORMAT: Functional colour notations (rgba, rgb, hsl, hsla, hwb) are not permitted. Use only the exact hex tokens defined in the design system: "
    ++ primary ++ " and " ++ secondary ++ "."

/-- `_normalise_hex(h)`: lowercase, and expand `#rgb` (any 4-character string)
    to `#rrggbb`; other lengths are returned lowercased, unchanged. -/
def _normalise_hex (h : String) : String :=
  let l := strLower h
  match l.data with
  | [_, c1, c2, c3] => ⟨['#', c1, c1, c2, c2, c3, c3]⟩
  | _ => l

/-- The 3-digit shorthand admitted for a 7-character approved value whose
    channel digit pairs are equal (the loop over `list(approved_hex)`). -/
def shortAlias (h : String) : Option String :=
  match h.data with
  | [_, r1, r2, g1, g2, b1, b2] =>
    if r1 = r2 ∧ g1 = g2 ∧ b1 = b2 then some ⟨['#', r1, g1, b1]⟩ else none
  | _ => none

/-- The approved hex set (tokens, white, black, plus 3-digit aliases); a list
    whose membership is the Python set's membership. -/
def approvedHex (primary secondary : String) : List String :=
  let base := [strLower primary, strLower secondary, "#ffffff", "#fff", "#000000", "#000"]
  base ++ base.filterMap shortAlias

/-- `normalised_approved = {_normalise_hex(h) for h in approved_hex}`. -/
def normalisedApproved (primary secondary : String) : List String :=
  (approvedHex primary secondary).map _normalise_hex

/-- All matches of `re.finditer(r"#[0-9a-fA-F]{3,8}\b", code)`, in order, as
    raw matched character lists: at each `#`, the run of hex digits after it
    must have length 3..8 (greedy with backtracking, so a longer run kills the
    match) and end at a word boundary; matches cannot overlap because a match
    contains no `#` after its first character. -/
def hexMatches : List Char → List (List Char)
  | [] => []
  | c :: rest =>
    if c = '#' then
      let run := rest.takeWhile hexDigitCh
      if 3 ≤ run.length ∧ run.length ≤ 8 ∧ noWordAhead (rest.drop run.length) then
        ('#' :: run) :: hexMatches (rest.drop run.length)
      else hexMatches rest
    else hexMatches rest
  termination_by cs => cs.length
  decreasing_by
    · have := (List.takeWhile_sublist (p := hexDigitCh) (l := rest)).length_le
      simp
      omega
    · simp
    · simp

/-- Message for rule 2 (`UNAUTHORISED_HEX_COLOR`); `lit` is the raw matched
    text `match.group(0)`. -/
def msgHexColor (lit primary secondary : String) : String :=
  "UNAUTHORISED_HEX_COLOR: '" ++ lit ++ "' is not in the design system. Approved hex values: "
    ++ primary ++ ", " ++ secondary ++ ", #ffffff, #000000."

/-- The loop of rule 2: `found = match.group(0).lower()` is checked against
    the normalised approved set and the `seen_violations` set (keyed on
    `found`, the lowercased matched text). -/
def hexErrsAux (primary secondary : String) (normApproved : List String) :
    List String → List (List Char) → List String
  | _, [] => []
  | seen, m :: ms =>
    let found : String := strLower ⟨m⟩
    let normalised := _normalise_hex found
    if ¬ normApproved.contains normalised ∧ ¬ seen.contains found then
      msgHexColor ⟨m⟩ primary secondary ::
        hexErrsAux primary secondary normApproved (found :: seen) ms
    else hexErrsAux primary secondary normApproved seen ms

/-- Try each named colour at `cs` (already past `:\s*`): case-insensitive
    name match followed by `\b`; returns the raw matched name (`group(1)`)
    and the rest of the input after the match. -/
def findNamed : List String → List Char → Option (List Char × List Char)
  | [], _ => none
  | n :: ns, cs =>
    if matchCI n.data cs ∧ noWordAhead (cs.drop n.data.length) then
      some (cs.take n.data.length, cs.drop n.data.length)
    else findNamed ns cs

theorem findNamed_rest_le {ns : List String} {cs o a : List Char}
    (h : findNamed ns cs = some (o, a)) : a.length ≤ cs.length := by
  induction ns with
  | nil => simp [findNamed] at h
  | cons n ns ih =>
    rw [findNamed] at h
    split at h
    · simp only [Option.some.injEq, Prod.mk.injEq] at h
      obtain ⟨-, h2⟩ := h
      subst h2
      simp
    · exact ih h

/-- All matches of `re.finditer(r":\s*(" + "|".join(_NAMED_COLORS) + r")\b",
    code, re.IGNORECASE)`, in order, as the raw `group(1)` texts: at each `:`
    skip `\s*` greedily and try the names (no two names can match the same
    position, so alternation order is irrelevant); on success continue after
    the match, otherwise at the next character. -/
def namedMatches : List Char → List (List Char)
  | [] => []
  | c :: rest =>
    if c = ':' then
      match h : findNamed namedColorsList (rest.dropWhile pySpace) with
      | some (orig, after) => orig :: namedMatches after
      | none => namedMatches rest
    else namedMatches rest
  termination_by cs => cs.length
  decreasing_by
    · have h1 := findNamed_rest_le h
      have h2 := (List.dropWhile_sublist (l := rest) pySpace).length_le
      simp
      omega
    · simp
    · simp

/-- Message for rule 3 (`UNAUTHORISED_NAMED_COLOR`); `name` is `group(1)`. -/
def msgNamedColor (name : String) : String :=
  "UNAUTHORISED_NAMED_COLOR: Named CSS colour '" ++ name ++
    "' is not permitted. Use only design-system hex tokens."

/-- `validate_colors(code, tokens)`: the three colour rules in order.
    `none` models the `KeyError` raised when `primary_color` or
    `secondary_color` is absent (both are read unconditionally). -/
def validate_colors (code : String) (tokens : Dict) : Option (List String) := do
  let primary ← dictGet tokens "primary_color"
  let secondary ← dictGet tokens "secondary_color"
  let e1 : List String :=
    if hasFuncColor code then [msgFuncColor primary secondary] else []
  let e2 := hexErrsAux primary secondary (normalisedApproved primary secondary)
    [] (hexMatches code.data)
  let e3 := (namedMatches code.data).filterMap (fun m =>
    let colourName := strLower ⟨m⟩
    if ¬ safeCssKeywords.contains colourName then some (msgNamedColor ⟨m⟩) else none)
  pure (e1 ++ (e2 ++ e3))

/-! ## Sub-validator 3 — structural completeness (`validate_structure`) -/

/-- A match of `\bexport\s+class\b` starting at `cs` (case-sensitive). -/
def exportClassAt (cs : List Char) : Bool :=
  "export".data.isPrefixOf cs &&
    (let rest := cs.drop 6
     let sp := rest.takeWhile pySpace
     decide (1 ≤ sp.length) && "class".data.isPrefixOf (rest.drop sp.length) &&
       noWordAhead ((rest.drop sp.length).drop 5))

/-- `re.search(r"\bexport\s+class\b", code)`. -/
def hasExportClass (code : String) : Bool := searchB exportClassAt false code.data

/-- The access modifiers of the first member pattern. -/
def accessModifiers : List String := ["public", "private", "protected"]

/-- Member pattern 1: `\b(public|private|protected)\s+\w+` (ignoring case). -/
def memberP1At (cs : List Char) : Bool :=
  accessModifiers.any (fun n =>
    matchCI n.data cs &&
      (let rest := cs.drop n.data.length
       let sp := rest.takeWhile pySpace
       decide (1 ≤ sp.length) &&
         match (rest.drop sp.length).head? with
         | some d => wordChar d
         | none => false))

/-- The type names of the second member pattern. -/
def tsTypes : List String :=
  ["string", "number", "boolean", "any", "void", "object", "Array",
   "Observable", "Subject", "EventEmitter"]

/-- Member pattern 2: `\b\w+\s*:\s*(string|number|…)\b` (case-sensitive);
    `\w+` is its maximal run since a word character can continue neither
    `\s*` nor `:`. -/
def memberP2At (cs : List Char) : Bool :=
  let run := cs.takeWhile wordChar
  decide (1 ≤ run.length) &&
    (match (cs.drop run.length).dropWhile pySpace with
     | ':' :: r2 =>
       let r3 := r2.dropWhile pySpace
       tsTypes.any (fun t => t.data.isPrefixOf r3 && noWordAhead (r3.drop t.data.length))
     | _ => false)

/-- Member pattern 3: `\b\w+\s*\([^)]*\)\s*(?::\s*\w+\s*)?\{`; the optional
    return-type group either matches greedily or is skipped entirely. -/
def memberP3At (cs : List Char) : Bool :=
  let run := cs.takeWhile wordChar
  decide (1 ≤ run.length) &&
    (match (cs.drop run.length).dropWhile pySpace with
     | '(' :: r2 =>
       let inside := r2.takeWhile (fun x => decide (x ≠ ')'))
       match r2.drop inside.length with
       | ')' :: r3 =>
         let r4 := r3.dropWhile pySpace
         (match r4 with
          | ':' :: r5 =>
            let r6 := r5.dropWhile pySpace
            let w := r6.takeWhile wordChar
            decide (1 ≤ w.length) &&
              decide ((((r6.drop w.length).dropWhile pySpace).head?) = some '{')
          | _ => false) ||
           decide (r4.head? = some '{')
       | _ => false
     | _ => false)

/-- The lifecycle hooks of the fourth member pattern. -/
def lifecycleHooks : List String :=
  ["constructor", "ngOnInit", "ngOnDestroy", "ngOnChanges", "ngAfterViewInit"]

/-- Member pattern 4: `\b(constructor|ngOnInit|ngOnDestroy|ngOnChanges|ngAfterViewInit)\b`. -/
def memberP4At (cs : List Char) : Bool :=
  lifecycleHooks.any (fun n => n.data.isPrefixOf cs && noWordAhead (cs.drop n.data.length))

/-- `any(p.search(code) for p in ts_member_patterns)`. -/
def hasMember (code : String) : Bool :=
  searchB memberP1At false code.data || searchB memberP2At false code.data ||
    searchB memberP3At false code.data || searchB memberP4At false code.data

/-- Python `code.strip()`. -/
def pyStrip (cs : List Char) : List Char :=
  ((cs.dropWhile pySpace).reverse.dropWhile pySpace).reverse

/-- Message for a missing `@Component` decorator. -/
def msgNoDecorator : String :=
  "INCOMPLETE_STRUCTURE: Missing @Component decorator. The generated output must be a valid Angular standalone component."

/-- Message for a missing `export class` declaration. -/
def msgNoExportClass : String :=
  "INCOMPLETE_STRUCTURE: Missing 'export class' declaration. The component class must be exported for Angular to register it."

/-- Message for a source that does not end with a closing brace. -/
def msgTruncated : String :=
  "INCOMPLETE_STRUCTURE: Component source does not end with '\x7d'. The class body may be truncated or improperly closed."

/-- Message for a class with no detected members. -/
def msgEmptyClass : String :=
  "INCOMPLETE_STRUCTURE: No TypeScript class members (typed properties or methods) detected inside the component class body. The class appears to be empty."

/-- `validate_structure(code)`: decorator, exported class, trailing brace,
    and (only when an exported class exists) at least one class member. -/
def validate_structure (code : String) : List String :=
  let e1 : List String := if pyIn "@Component" code then [] else [msgNoDecorator]
  let e2 : List String := if hasExportClass code then [] else [msgNoExportClass]
  let stripped := pyStrip code.data
  let e3 : List String :=
    if stripped ≠ [] ∧ stripped.getLast? ≠ some '}' then [msgTruncated] else []
  let e4 : List String :=
    if hasExportClass code ∧ ¬ hasMember code then [msgEmptyClass] else []
  e1 ++ (e2 ++ (e3 ++ e4))

example : validate_structure "@Component({}) export class A { ngOnInit() {} }" = [] := by decide

example : validate_structure "" = [msgNoDecorator, msgNoExportClass] := by decide

example : validate_structure "@Component export class A {}" = [msgEmptyClass] := by decide

/-! ## Sub-validator 4 — bracket balance scanner (`validate_syntax`) -/

/-- The `bracket_names` table of the source. -/
def bracketName (c : Char) : String :=
  if c = '(' then "opening parenthesis '('"
  else if c = ')' then "closing parenthesis ')'"
  else if c = '{' then "opening brace '\x7b'"
  else if c = '}' then "closing brace '\x7d'"
  else if c = '[' then "opening bracket '['"
  else if c = ']' then "closing bracket ']'"
  else ""

/-- The `openers` table: the closer matching an opener. -/
def closerFor (c : Char) : Char :=
  if c = '(' then ')' else if c = '{' then '}' else ']'

/-- The `closers` table: the opener a closer expects on top of the stack. -/
def matchingOpener (c : Char) : Char :=
  if c = ')' then '(' else if c = '}' then '{' else '['

/-- The `SYNTAX_ERROR` message for a closer with an empty stack. -/
def msgUnexpected (c : Char) (line : Nat) : String :=
  "SYNTAX_ERROR: Unexpected " ++ bracketName c ++ " on line " ++ toString line ++
    " — no matching opener exists. Check for an extra or misplaced '" ++
    String.singleton c ++ "'."

/-- The `SYNTAX_ERROR` message for a closer that does not match the top opener. -/
def msgMismatch (c : Char) (line : Nat) (o : Char) (oline : Nat) : String :=
  "SYNTAX_ERROR: Mismatched brackets — " ++ bracketName c ++ " on line " ++
    toString line ++ " does not match " ++ bracketName o ++ " opened on line " ++
    toString oline ++ "."

/-- The `SYNTAX_ERROR` message for an opener still on the stack at the end. -/
def msgUnclosed (o : Char) (oline : Nat) : String :=
  "SYNTAX_ERROR: Unclosed " ++ bracketName o ++ " opened on line " ++
    toString oline ++ " — missing closing '" ++ String.singleton (closerFor o) ++ "'."

/-- The string-skipping loop of `validate_syntax`: after an opening quote,
    consume up to and including the matching (unescaped) quote, counting the
    newlines met; a backslash with at least one character after it consumes
    the following character without looking at it (so an escaped newline is
    not counted); an unterminated string runs to the end of input. Returns
    the remaining input and the updated line counter. -/
def skipString (quote : Char) : List Char → Nat → (List Char × Nat)
  | [], line => ([], line)
  | c :: rest, line =>
    if c = '\n' then skipString quote rest (line + 1)
    else if c = '\\' ∧ rest ≠ [] then skipString quote rest.tail line
    else if c = quote then (rest, line)
    else skipString quote rest line
  termination_by cs => cs.length
  decreasing_by
    · simp
    · simp [List.length_tail]; omega
    · simp

/-- The block-comment loop of `validate_syntax`: after `/*`, consume up to
    and including `*/`, counting newlines. The Python loop runs while
    `i < length - 1`, so when a single character remains it is left
    unconsumed, to be reprocessed by the main loop. -/
def skipBlock : List Char → Nat → (List Char × Nat)
  | [], line => ([], line)
  | [c], line => ([c], line)
  | c1 :: c2 :: rest, line =>
    if c1 = '\n' then skipBlock (c2 :: rest) (line + 1)
    else if c1 = '*' ∧ c2 = '/' then (rest, line)
    else skipBlock (c2 :: rest) line

theorem skipString_rest_le (quote : Char) (cs : List Char) (line : Nat) :
    (skipString quote cs line).1.length ≤ cs.length := by
  induction cs, line using skipString.induct quote with
  | case1 line => simp [skipString]
  | case2 rest line ih =>
    rw [skipString, if_pos rfl]
    simp at ih ⊢
    omega
  | case3 c rest line h1 h2 ih =>
    rw [skipString, if_neg h1, if_pos h2]
    simp [List.length_tail] at ih ⊢
    omega
  | case4 rest line h1 h2 =>
    rw [skipString, if_neg h1, if_neg h2, if_pos rfl]
    simp
  | case5 c rest line h1 h2 h3 ih =>
    rw [skipString, if_neg h1, if_neg h2, if_neg h3]
    simp at ih ⊢
    omega

theorem skipBlock_rest_le (cs : List Char) (line : Nat) :
    (skipBlock cs line).1.length ≤ cs.length := by
  induction cs, line using skipBlock.induct with
  | case1 line => simp [skipBlock]
  | case2 c line => simp [skipBlock]
  | case3 c2 rest line ih =>
    rw [skipBlock, if_pos rfl]
    simp at ih ⊢
    omega
  | case4 c1 c2 rest line h1 h2 =>
    rw [skipBlock, if_neg h1, if_pos h2]
    simp
    omega
  | case5 c1 c2 rest line h1 h2 ih =>
    rw [skipBlock, if_neg h1, if_neg h2]
    simp at ih ⊢
    omega

/-- The main loop of `validate_syntax`: a single pass in `CODE` state.
    Newlines bump the line counter; a quote enters the string skipper; `//`
    skips to the next newline (which is then reprocessed); `/*` enters the
    block-comment skipper; openers push `(char, line)`; a closer with an
    empty stack emits an error without touching the stack, a closer that
    does not match the top opener emits an error and pops anyway, and a
    matching closer pops silently. At the end of input one error per entry
    left on the stack is emitted, bottom (oldest) first — the stack is kept
    top-first here, so that is its reversal. -/
def scanAux : List Char → Nat → List (Char × Nat) → List String
  | [], _, stack => stack.reverse.map (fun e => msgUnclosed e.1 e.2)
  | c :: rest, line, stack =>
    if c = '\n' then scanAux rest (line + 1) stack
    else if c = '\'' ∨ c = '"' ∨ c = '`' then
      scanAux (skipString c rest line).1 (skipString c rest line).2 stack
    else if c = '/' ∧ rest.head? = some '/' then
      scanAux (rest.dropWhile (fun x => decide (x ≠ '\n'))) line stack
    else if c = '/' ∧ rest.head? = some '*' then
      scanAux (skipBlock rest.tail line).1 (skipBlock rest.tail line).2 stack
    else if c = '(' ∨ c = '{' ∨ c = '[' then
      scanAux rest line ((c, line) :: stack)
    else if c = ')' ∨ c = '}' ∨ c = ']' then
      if stack = [] then
        msgUnexpected c line :: scanAux rest line stack
      else if (stack.headD ('(', 0)).1 ≠ matchingOpener c then
        msgMismatch c line (stack.headD ('(', 0)).1 (stack.headD ('(', 0)).2 ::
          scanAux rest line stack.tail
      else
        scanAux rest line stack.tail
    else scanAux rest line stack
  termination_by cs _ _ => cs.length
  decreasing_by
    · simp
    · have := skipString_rest_le c rest line
      simp
      omega
    · have := (List.dropWhile_sublist (l := rest) (fun x => decide (x ≠ '\n'))).length_le
      simp at this ⊢
      omega
    · have h1 := skipBlock_rest_le rest.tail line
      have h2 : rest.tail.length ≤ rest.length := by simp [List.length_tail]
      simp
      omega
    · simp
    · simp
    · simp
    · simp
    · simp

/-- `validate_syntax(code)`: run the scanner from line 1 with an empty stack. -/
def validate_syntax (code : String) : List String := scanAux code.data 1 []

/-! ## Warnings and the top-level aggregator (`validate_component`) -/

/-- The `SPACING_SUGGESTION` warning message. -/
def msgSpacing (spacing : String) : String :=
  "SPACING_SUGGESTION: The spacing token '" ++ spacing ++
    "' was not detected. Consider applying it to padding/margin for visual consistency."

/-- `_warn_spacing_token(code, tokens)`: reads `spacing` with
    `tokens.get("spacing", "")` (never raises); warns when the token is a
    non-empty string that does not occur verbatim in the source. -/
def _warn_spacing_token (code : String) (tokens : Dict) : List String :=
  let spacing := dictGetD tokens "spacing" ""
  if spacing ≠ "" ∧ ¬ pyIn spacing code then [msgSpacing spacing] else []

/-- The report dict returned by `validate_component`. -/
structure Report where
  is_valid : Bool
  errors : List String
  warnings : List String
deriving Repr, DecidableEq

/-- `validate_component(code, tokens)`: run the four hard checkers in order,
    concatenate their errors, run the soft spacing check, and assemble the
    report. `none` models an exception propagated out of a sub-validator. -/
def validate_component (code : String) (tokens : Dict) : Option Report := do
  let e1 ← validate_design_tokens code tokens
  let e2 ← validate_colors code tokens
  let errors := e1 ++ e2 ++ validate_structure code ++ validate_syntax code
  let warnings := _warn_spacing_token code tokens
  pure { is_valid := errors.length == 0, errors := errors, warnings := warnings }

/-! ## Reference scanner for the line-number claim

The specification asserts that every line number the scanner cites equals
one plus the number of newline characters preceding that position in the
input. `scanSpecAux` states that reading directly: it is the same automaton,
but it threads the consumed prefix `pre` of the input and computes every
cited line number as `lineOf pre = 1 + pre.count '\n'`. -/

/-- One plus the number of newlines in the consumed prefix `pre`: the line
    number the specification assigns to the current position. -/
def lineOf (pre : List Char) : Nat := 1 + pre.count '\n'

/-- The string skipper, threading the consumed prefix instead of a line
    counter (modelled on the spec's words for the line-number claim). -/
def stringSpec (quote : Char) : List Char → List Char → (List Char × List Char)
  | pre, [] => (pre, [])
  | pre, c :: rest =>
    if c = '\n' then stringSpec quote (pre ++ [c]) rest
    else if c = '\\' ∧ rest ≠ [] then stringSpec quote (pre ++ c :: rest.take 1) rest.tail
    else if c = quote then (pre ++ [c], rest)
    else stringSpec quote (pre ++ [c]) rest
  termination_by _ cs => cs.length
  decreasing_by
    · simp
    · simp [List.length_tail]; omega
    · simp

/-- The block-comment skipper, threading the consumed prefix. -/
def blockSpec : List Char → List Char → (List Char × List Char)
  | pre, [] => (pre, [])
  | pre, [c] => (pre, [c])
  | pre, c1 :: c2 :: rest =>
    if c1 = '\n' then blockSpec (pre ++ [c1]) (c2 :: rest)
    else if c1 = '*' ∧ c2 = '/' then (pre ++ [c1, c2], rest)
    else blockSpec (pre ++ [c1]) (c2 :: rest)

theorem stringSpec_rest_suffix (quote : Char) (pre cs : List Char) :
    (stringSpec quote pre cs).2 <:+ cs := by
  induction pre, cs using stringSpec.induct quote with
  | case1 pre => simp [stringSpec]
  | case2 pre rest ih =>
    rw [stringSpec, if_pos rfl]
    exact ih.trans (List.suffix_cons _ _)
  | case3 pre c rest h1 h2 ih =>
    rw [stringSpec, if_neg h1, if_pos h2]
    refine ih.trans ?_
    refine (List.tail_suffix rest).trans (List.suffix_cons _ _)
  | case4 pre rest h1 h2 =>
    rw [stringSpec, if_neg h1, if_neg h2, if_pos rfl]
    exact List.suffix_cons _ _
  | case5 pre c rest h1 h2 h3 ih =>
    rw [stringSpec, if_neg h1, if_neg h2, if_neg h3]
    exact ih.trans (List.suffix_cons _ _)

theorem blockSpec_rest_suffix (pre cs : List Char) :
    (blockSpec pre cs).2 <:+ cs := by
  induction pre, cs using blockSpec.induct with
  | case1 pre => simp [blockSpec]
  | case2 pre c => simp [blockSpec]
  | case3 pre c2 rest ih =>
    rw [blockSpec, if_pos rfl]
    exact ih.trans (List.suffix_cons _ _)
  | case4 pre c1 c2 rest h1 h2 =>
    rw [blockSpec, if_neg h1, if_pos h2]
    exact ((List.suffix_cons _ _).trans (List.suffix_cons _ _))
  | case5 pre c1 c2 rest h1 h2 ih =>
    rw [blockSpec, if_neg h1, if_neg h2]
    exact ih.trans (List.suffix_cons _ _)

/-- The main loop with spec-side line numbers: identical automaton to
    `scanAux`, citing `lineOf pre` wherever the scanner cites its running
    line counter. -/
def scanSpecAux : List Char → List Char → List (Char × Nat) → List String
  | _, [], stack => stack.reverse.map (fun e => msgUnclosed e.1 e.2)
  | pre, c :: rest, stack =>
    if c = '\n' then scanSpecAux (pre ++ [c]) rest stack
    else if c = '\'' ∨ c = '"' ∨ c = '`' then
      scanSpecAux (stringSpec c (pre ++ [c]) rest).1 (stringSpec c (pre ++ [c]) rest).2 stack
    else if c = '/' ∧ rest.head? = some '/' then
      scanSpecAux (pre ++ c :: rest.takeWhile (fun x => decide (x ≠ '\n')))
        (rest.dropWhile (fun x => decide (x ≠ '\n'))) stack
    else if c = '/' ∧ rest.head? = some '*' then
      scanSpecAux (blockSpec (pre ++ c :: rest.take 1) rest.tail).1
        (blockSpec (pre ++ c :: rest.take 1) rest.tail).2 stack
    else if c = '(' ∨ c = '{' ∨ c = '[' then
      scanSpecAux (pre ++ [c]) rest ((c, lineOf pre) :: stack)
    else if c = ')' ∨ c = '}' ∨ c = ']' then
      if stack = [] then
        msgUnexpected c (lineOf pre) :: scanSpecAux (pre ++ [c]) rest stack
      else if (stack.headD ('(', 0)).1 ≠ matchingOpener c then
        msgMismatch c (lineOf pre) (stack.headD ('(', 0)).1 (stack.headD ('(', 0)).2 ::
          scanSpecAux (pre ++ [c]) rest stack.tail
      else
        scanSpecAux (pre ++ [c]) rest stack.tail
    else scanSpecAux (pre ++ [c]) rest stack
  termination_by _ cs _ => cs.length
  decreasing_by
    · simp
    · have := (stringSpec_rest_suffix c (pre ++ [c]) rest).length_le
      simp
      omega
    · have := (List.dropWhile_sublist (l := rest) (fun x => decide (x ≠ '\n'))).length_le
      simp at this ⊢
      omega
    · have h1 := (blockSpec_rest_suffix (pre ++ c :: rest.take 1) rest.tail).length_le
      have h2 : rest.tail.length ≤ rest.length := by simp [List.length_tail]
      simp
      omega
    · simp
    · simp
    · simp
    · simp
    · simp

/-- The reference form of `validate_syntax` with spec-side line numbers. -/
def scanSpec (code : String) : List String := scanSpecAux [] code.data []

theorem lineOf_snoc (pre : List Char) (c : Char) :
    lineOf (pre ++ [c]) = if c = '\n' then lineOf pre + 1 else lineOf pre := by
  by_cases h : c = '\n'
  · subst h
    simp [lineOf, List.count_append]
    omega
  · simp [lineOf, List.count_append, List.count_singleton, h]

theorem lineOf_append_no_newline (pre l : List Char) (h : ∀ x ∈ l, x ≠ '\n') :
    lineOf (pre ++ l) = lineOf pre := by
  have : l.count '\n' = 0 := by
    rw [List.count_eq_zero]
    intro hm
    exact h '\n' hm rfl
  simp [lineOf, List.count_append, this]

theorem stringSpec_skipString (quote : Char) :
    ∀ (cs : List Char), '\\' ∉ cs → ∀ (pre : List Char),
      skipString quote cs (lineOf pre) =
        ((stringSpec quote pre cs).2, lineOf (stringSpec quote pre cs).1) := by
  intro cs
  induction cs with
  | nil => intro _ pre; rw [skipString, stringSpec]
  | cons c rest ih =>
    intro hbs pre
    simp only [List.mem_cons, not_or] at hbs
    obtain ⟨hc, hrest⟩ := hbs
    rw [skipString, stringSpec]
    by_cases h1 : c = '\n'
    · rw [if_pos h1, if_pos h1]
      have : lineOf pre + 1 = lineOf (pre ++ [c]) := by rw [lineOf_snoc, if_pos h1]
      rw [this]
      exact ih hrest (pre ++ [c])
    · rw [if_neg h1, if_neg h1]
      have h2 : ¬ (c = '\\' ∧ rest ≠ []) := by
        intro hx
        exact hc hx.1.symm
      rw [if_neg h2, if_neg h2]
      by_cases h3 : c = quote
      · rw [if_pos h3, if_pos h3]
        rw [lineOf_snoc, if_neg h1]
      · rw [if_neg h3, if_neg h3]
        have : lineOf pre = lineOf (pre ++ [c]) := by rw [lineOf_snoc, if_neg h1]
        rw [this]
        exact ih hrest (pre ++ [c])

theorem blockSpec_skipBlock :
    ∀ (pre cs : List Char),
      skipBlock cs (lineOf pre) = ((blockSpec pre cs).2, lineOf (blockSpec pre cs).1) := by
  intro pre cs
  induction pre, cs using blockSpec.induct with
  | case1 pre => rw [skipBlock, blockSpec]
  | case2 pre c => rw [skipBlock, blockSpec]
  | case3 pre c2 rest ih =>
    rw [skipBlock, if_pos rfl, blockSpec, if_pos rfl]
    have : lineOf pre + 1 = lineOf (pre ++ ['\n']) := by rw [lineOf_snoc, if_pos rfl]
    rw [this]
    exact ih
  | case4 pre c1 c2 rest h1 h2 =>
    rw [skipBlock, if_neg h1, if_pos h2, blockSpec, if_neg h1, if_pos h2]
    have : pre ++ [c1, c2] = (pre ++ [c1]) ++ [c2] := by simp
    rw [this, lineOf_snoc, lineOf_snoc, if_neg h1]
    obtain ⟨-, hc2⟩ := h2
    subst hc2
    simp
  | case5 pre c1 c2 rest h1 h2 ih =>
    rw [skipBlock, if_neg h1, if_neg h2, blockSpec, if_neg h1, if_neg h2]
    have : lineOf pre = lineOf (pre ++ [c1]) := by rw [lineOf_snoc, if_neg h1]
    rw [this]
    exact ih

theorem scanAux_refines :
    ∀ (n : Nat) (cs : List Char), cs.length ≤ n → ∀ (pre : List Char) (stack : List (Char × Nat)),
      '\\' ∉ cs → scanAux cs (lineOf pre) stack = scanSpecAux pre cs stack := by
  intro n
  induction n with
  | zero =>
    intro cs hlen pre stack _
    have : cs = [] := List.length_eq_zero.mp (Nat.le_zero.mp hlen)
    subst this
    rw [scanAux, scanSpecAux]
  | succ n ih =>
    intro cs hlen pre stack hbs
    match cs with
    | [] => rw [scanAux, scanSpecAux]
    | c :: rest =>
      simp only [List.mem_cons, not_or] at hbs
      obtain ⟨hc, hrest⟩ := hbs
      have hrlen : rest.length ≤ n := by simp at hlen; omega
      rw [scanAux, scanSpecAux]
      by_cases h1 : c = '\n'
      · rw [if_pos h1, if_pos h1]
        have hL : lineOf pre + 1 = lineOf (pre ++ [c]) := by rw [lineOf_snoc, if_pos h1]
        rw [hL]
        exact ih rest hrlen (pre ++ [c]) stack hrest
      · rw [if_neg h1, if_neg h1]
        have hL : lineOf (pre ++ [c]) = lineOf pre := by rw [lineOf_snoc, if_neg h1]
        by_cases h2 : c = '\'' ∨ c = '"' ∨ c = '`'
        · rw [if_pos h2, if_pos h2]
          have hss := stringSpec_skipString c rest hrest (pre ++ [c])
          rw [hL] at hss
          rw [hss]
          have hsuf := stringSpec_rest_suffix c (pre ++ [c]) rest
          exact ih _ (hsuf.length_le.trans hrlen) _ stack
            (fun hm => hrest (hsuf.sublist.subset hm))
        · rw [if_neg h2, if_neg h2]
          by_cases h3 : c = '/' ∧ rest.head? = some '/'
          · rw [if_pos h3, if_pos h3]
            have hL2 : lineOf pre =
                lineOf (pre ++ c :: rest.takeWhile (fun x => decide (x ≠ '\n'))) := by
              rw [lineOf_append_no_newline]
              intro x hx
              rcases List.mem_cons.mp hx with hx1 | hx2
              · rw [hx1]; exact h3.1 ▸ (by decide)
              · have := List.mem_takeWhile_imp hx2
                simpa using this
            rw [hL2]
            have hsub := List.dropWhile_sublist (l := rest) (fun x => decide (x ≠ '\n'))
            exact ih _ (hsub.length_le.trans hrlen) _ stack
              (fun hm => hrest (hsub.subset hm))
          · rw [if_neg h3, if_neg h3]
            by_cases h4 : c = '/' ∧ rest.head? = some '*'
            · rw [if_pos h4, if_pos h4]
              have hbb := blockSpec_skipBlock (pre ++ c :: rest.take 1) rest.tail
              have hL3 : lineOf (pre ++ c :: rest.take 1) = lineOf pre := by
                rw [lineOf_append_no_newline]
                intro x hx
                rcases List.mem_cons.mp hx with hx1 | hx2
                · rw [hx1]; exact h4.1 ▸ (by decide)
                · match hr : rest with
                  | [] => simp [hr] at hx2
                  | r :: rt =>
                    simp [hr] at hx2
                    have hre : r = '*' := by simpa using h4.2
                    rw [hx2, hre]
                    decide
              rw [hL3] at hbb
              rw [hbb]
              have hsuf := blockSpec_rest_suffix (pre ++ c :: rest.take 1) rest.tail
              have htail : rest.tail.length ≤ rest.length := by
                simp [List.length_tail]
              have htsub : rest.tail ⊆ rest := (List.tail_suffix rest).sublist.subset
              exact ih _ ((hsuf.length_le.trans htail).trans hrlen) _ stack
                (fun hm => hrest (htsub (hsuf.sublist.subset hm)))
            · rw [if_neg h4, if_neg h4]
              by_cases h5 : c = '(' ∨ c = '{' ∨ c = '['
              · rw [if_pos h5, if_pos h5]
                have := ih rest hrlen (pre ++ [c]) ((c, lineOf pre) :: stack) hrest
                rw [hL] at this
                exact this
              · rw [if_neg h5, if_neg h5]
                by_cases h6 : c = ')' ∨ c = '}' ∨ c = ']'
                · rw [if_pos h6, if_pos h6]
                  by_cases h7 : stack = []
                  · rw [if_pos h7, if_pos h7]
                    have := ih rest hrlen (pre ++ [c]) stack hrest
                    rw [hL] at this
                    rw [this]
                  · rw [if_neg h7, if_neg h7]
                    by_cases h8 : (stack.headD ('(', 0)).1 ≠ matchingOpener c
                    · rw [if_pos h8, if_pos h8]
                      have := ih rest hrlen (pre ++ [c]) stack.tail hrest
                      rw [hL] at this
                      rw [this]
                    · rw [if_neg h8, if_neg h8]
                      have := ih rest hrlen (pre ++ [c]) stack.tail hrest
                      rw [hL] at this
                      exact this
                · rw [if_neg h6, if_neg h6]
                  have := ih rest hrlen (pre ++ [c]) stack hrest
                  rw [hL] at this
                  exact this

/-! ## Supporting lemmas for the claims -/

theorem charOfNat_toNat_low (m : Nat) (h1 : 97 ≤ m) (h2 : m ≤ 122) :
    (Char.ofNat m).toNat = m := by
  interval_cases m <;> decide

theorem lowerChar_idem (c : Char) : lowerChar (lowerChar c) = lowerChar c := by
  unfold lowerChar Char.toLower
  by_cases h : c.toNat ≥ 65 ∧ c.toNat ≤ 90
  · rw [if_pos h]
    have hv : (Char.ofNat (c.toNat + 32)).toNat = c.toNat + 32 :=
      charOfNat_toNat_low _ (by omega) (by omega)
    rw [if_neg]
    intro hx
    rw [hv] at hx
    omega
  · rw [if_neg h, if_neg h]

theorem strLower_idem (s : String) : strLower (strLower s) = strLower s := by
  unfold strLower
  simp [List.map_map, Function.comp_def, lowerChar_idem]

theorem strLower_length (s : String) : (strLower s).data.length = s.data.length := by
  simp [strLower]

theorem prefix_append_right (t : List Char) (s u : String) (h : t <+: s.data) :
    t <+: (s ++ u).data := by
  rw [String.data_append]
  exact h.trans (List.prefix_append _ _)

/-- A complete token dictionary used by the concrete witnesses. -/
def tokensFix : Dict :=
  [("primary_color", "#1A2B3C"), ("secondary_color", "#AABBCC"),
   ("border_radius", "8px"), ("font_family", "Inter"), ("spacing", "16px")]

/-! ## Claims -/

/-- C1: for every source string and every token set on which
    `validate_component` returns a report, the report's `is_valid` field is
    exactly the boolean `errors.length == 0` (so it is a function of the
    errors list alone, and the warnings list never affects it), and it is
    `true` precisely when the errors list is empty. -/
theorem C1_is_valid_iff_no_errors (code : String) (tokens : Dict) (r : Report)
    (h : validate_component code tokens = some r) :
    r.is_valid = (r.errors.length == 0) ∧ (r.is_valid = true ↔ r.errors = []) := by
  cases hv1 : validate_design_tokens code tokens with
  | none => rw [validate_component] at h; simp [hv1] at h
  | some e1 =>
    cases hv2 : validate_colors code tokens with
    | none => rw [validate_component] at h; simp [hv1, hv2] at h
    | some e2 =>
      rw [validate_component] at h
      simp only [hv1, hv2] at h
      simp at h
      subst h
      constructor
      · simp
      · simp [Nat.add_eq_zero, List.length_eq_zero, List.append_eq_nil]

/-- C1 witness: a concrete run of `validate_component`. -/
theorem C1_witness :
    ∃ r : Report, validate_component "" tokensFix = some r ∧
      (r.is_valid = (r.errors.length == 0) ∧ (r.is_valid = true ↔ r.errors = [])) := by
  have hs : (validate_component "" tokensFix).isSome = true := by
    simp +decide [validate_component, validate_design_tokens, validate_colors,
      validate_structure, validate_syntax, _warn_spacing_token, scanAux, hexMatches,
      namedMatches, dictGet, dictGetD]
  obtain ⟨r, hr⟩ := Option.isSome_iff_exists.mp hs
  exact ⟨r, hr, C1_is_valid_iff_no_errors "" tokensFix r hr⟩

/-- C7: whenever the two fallible sub-validators return error lists `e1` and
    `e2`, the assembled report's errors list is exactly
    `e1 ++ e2 ++ validate_structure code ++ validate_syntax code` — the
    token-presence diagnostics, then the colour diagnostics, then the
    structural diagnostics, then the syntax diagnostics, each sub-list kept
    in its internal order. -/
theorem C7_error_order (code : String) (tokens : Dict) (e1 e2 : List String)
    (h1 : validate_design_tokens code tokens = some e1)
    (h2 : validate_colors code tokens = some e2) :
    validate_component code tokens = some
      { is_valid := (e1 ++ e2 ++ validate_structure code ++ validate_syntax code).length == 0,
        errors := e1 ++ e2 ++ validate_structure code ++ validate_syntax code,
        warnings := _warn_spacing_token code tokens } := by
  rw [validate_component]
  simp [h1, h2]

/-- C7 witness: a concrete run showing the four checkers' outputs concatenated
    in order. -/
theorem C7_witness :
    validate_component "" tokensFix = some
      { is_valid := (([msgMissingPrimary "#1A2B3C", msgMissingRadius "8px", msgMissingFont "Inter"] ++
          [] ++ validate_structure "" ++ validate_syntax "").length == 0),
        errors := [msgMissingPrimary "#1A2B3C", msgMissingRadius "8px", msgMissingFont "Inter"] ++
          [] ++ validate_structure "" ++ validate_syntax "",
        warnings := _warn_spacing_token "" tokensFix } := by
  refine C7_error_order "" tokensFix _ _ ?_ ?_
  · decide
  · simp +decide [validate_colors, hexMatches, namedMatches, dictGet, hexErrsAux]

/-- C2: in `CODE` state, a closing bracket read with a non-empty stack whose
    top opener does not match emits exactly one mismatch `SYNTAX_ERROR` citing
    the closer's line and the opener's recorded line, and pops the mismatched
    top entry (scanning then continues on the popped stack); in particular the
    source `"( ]"` yields exactly one `SYNTAX_ERROR`, identifying the mismatch
    between `(` at line 1 and `]` at line 1, and nothing else. -/
theorem C2_mismatch_recovery :
    (∀ (c : Char) (rest : List Char) (line : Nat) (o : Char) (ol : Nat)
        (stack : List (Char × Nat)),
        (c = ')' ∨ c = '}' ∨ c = ']') → o ≠ matchingOpener c →
        scanAux (c :: rest) line ((o, ol) :: stack) =
          msgMismatch c line o ol :: scanAux rest line stack) ∧
      validate_syntax "( ]" = [msgMismatch ']' 1 '(' 1] := by
  constructor
  · intro c rest line o ol stack hc ho
    rcases hc with rfl | rfl | rfl <;>
      simp [scanAux, ho]
  · simp +decide [ validate_syntax, scanAux, skipString, skipBlock, matchingOpener]

/-- C2 witness: the mismatch step applied at the closer of `"( ]"`. -/
theorem C2_witness :
    scanAux [']'] 1 [('(', 1)] = msgMismatch ']' 1 '(' 1 :: scanAux [] 1 [] :=
  C2_mismatch_recovery.1 ']' [] 1 '(' 1 [] (by decide) (by decide)

theorem scanAux_openers_order (cs : List Char) :
    ∀ (line : Nat) (stack : List (Char × Nat)),
      (∀ c ∈ cs, c = '(' ∨ c = '{' ∨ c = '[') →
      scanAux cs line stack =
        stack.reverse.map (fun e => msgUnclosed e.1 e.2) ++
          cs.map (fun c => msgUnclosed c line) := by
  induction cs with
  | nil => intro line stack _; rw [scanAux]; simp
  | cons c rest ih =>
    intro line stack hall
    have hc := hall c (List.mem_cons_self c rest)
    have hrest : ∀ x ∈ rest, x = '(' ∨ x = '{' ∨ x = '[' :=
      fun x hx => hall x (List.mem_cons_of_mem c hx)
    have hstep : scanAux (c :: rest) line stack = scanAux rest line ((c, line) :: stack) := by
      rcases hc with rfl | rfl | rfl <;> simp [scanAux]
    rw [hstep, ih line ((c, line) :: stack) hrest]
    simp

/-- C3: at the end of the input the scanner emits exactly one `SYNTAX_ERROR`
    per entry still on the stack, citing that entry's opener character and
    recorded line, ordered from the bottom (oldest, outermost) entry to the
    top (the stack is kept top-first here, so that is its reversal); for a
    source consisting only of openers the trailing diagnostics therefore come
    in the order the openers were read; and the source `"\x7b \x7b \x7d"`
    (written with escaped braces) yields exactly one `SYNTAX_ERROR`, for the
    unclosed first `\x7b` opened on line 1. -/
theorem C3_unclosed_openers :
    (∀ (line : Nat) (stack : List (Char × Nat)),
        scanAux [] line stack = stack.reverse.map (fun e => msgUnclosed e.1 e.2)) ∧
      (∀ (cs : List Char) (line : Nat),
        (∀ c ∈ cs, c = '(' ∨ c = '{' ∨ c = '[') →
        scanAux cs line [] = cs.map (fun c => msgUnclosed c line)) ∧
      validate_syntax "\x7b \x7b \x7d" = [msgUnclosed '{' 1] := by
  refine ⟨?_, ?_, ?_⟩
  · intro line stack
    rw [scanAux]
  · intro cs line hall
    rw [scanAux_openers_order cs line [] hall]
    simp
  · simp +decide [ validate_syntax, scanAux, skipString, skipBlock, matchingOpener]

/-- C3 witness: three unclosed openers are reported in reading order. -/
theorem C3_witness :
    scanAux ['(', '\x7b', '['] 1 [] =
      [msgUnclosed '(' 1, msgUnclosed '\x7b' 1, msgUnclosed '[' 1] := by
  have h := C3_unclosed_openers.2.1 ['(', '\x7b', '['] 1 (by decide)
  simpa using h

/-- C4 counterexample: in the source consisting of a single-quoted string
    containing a backslash-escaped newline followed by `]`, the newline
    precedes the `]` (one newline in the first four characters), yet the
    diagnostic cites line 1, not 1 + 1: the escaped newline was skipped
    without incrementing the line counter. -/
theorem C4_counterexample :
    validate_syntax "'\\\n']" = [msgUnexpected ']' 1] ∧
      (("'\\\n']").data.take 4).count '\n' = 1 ∧
      msgUnexpected ']' 1 ≠ msgUnexpected ']' (1 + 1) := by
  refine ⟨?_, by decide, by decide⟩
  simp +decide [ validate_syntax, scanAux, skipString, skipBlock, matchingOpener]

/-- C4 (amended): the scanner's line counter counts every newline it meets,
    including newlines inside skipped block comments and unescaped newlines
    inside string literals, but not a newline consumed as the escaped
    character after a backslash inside a string; consequently, on every input
    containing no backslash, the scanner's output equals that of `scanSpec`,
    the same automaton in which every cited line number is computed as
    1 + the number of newline characters preceding that position. -/
theorem C4_line_numbers (code : String) (h : '\\' ∉ code.data) :
    validate_syntax code = scanSpec code := by
  have hmain := scanAux_refines code.data.length code.data le_rfl [] [] h
  have h1 : lineOf [] = 1 := by simp [lineOf]
  rw [h1] at hmain
  exact hmain

/-- C4 witness: on `"/*\n\n*/]"` (no backslash) the scanner agrees with the
    position-computed reference, and both cite line 3 for the stray `]` —
    the two newlines inside the block comment are counted. -/
theorem C4_witness :
    validate_syntax "/*\n\n*/]" = scanSpec "/*\n\n*/]" ∧
      validate_syntax "/*\n\n*/]" = [msgUnexpected ']' 3] :=
  ⟨C4_line_numbers "/*\n\n*/]" (by decide),
   by simp +decide [ validate_syntax, scanAux, skipString, skipBlock, matchingOpener]⟩

theorem card_insert_sdiff_not_mem (v : String) (F seenF : Finset String) (h : v ∉ seenF) :
    (insert v F \ seenF).card = (F \ insert v seenF).card + 1 := by
  rw [Finset.insert_sdiff_of_not_mem _ h, Finset.sdiff_insert]
  by_cases hv : v ∈ F \ seenF
  · rw [Finset.insert_eq_self.mpr hv, Finset.card_erase_of_mem hv]
    have := Finset.card_pos.mpr ⟨v, hv⟩
    omega
  · rw [Finset.erase_eq_of_not_mem hv, Finset.card_insert_of_not_mem hv]

/-- The rule-2 loop emits one message per distinct lowercased matched text that
    is not approved and not already seen: its output length is the number of
    such distinct values outside `seen`. -/
theorem hexErrsAux_length (p s : String) (na : List String) :
    ∀ (ms : List (List Char)) (seen : List String),
      (hexErrsAux p s na seen ms).length =
        ((((ms.map (fun m => strLower ⟨m⟩)).filter
            (fun v => !(na.contains (_normalise_hex v)))).toFinset) \ seen.toFinset).card := by
  intro ms
  induction ms with
  | nil => intro seen; simp [hexErrsAux]
  | cons m ms ih =>
    intro seen
    rw [hexErrsAux]
    by_cases h1 : ¬ na.contains (_normalise_hex (strLower ⟨m⟩)) ∧
        ¬ seen.contains (strLower ⟨m⟩)
    · rw [if_pos h1]
      obtain ⟨hna, hseen⟩ := h1
      have hvseen : strLower ⟨m⟩ ∉ seen.toFinset := by
        rw [List.mem_toFinset]
        intro hx
        exact hseen (by simpa [List.contains] using hx)
      simp only [List.length_cons, List.map_cons, List.filter_cons]
      rw [if_pos (by simpa using hna)]
      rw [List.toFinset_cons]
      rw [card_insert_sdiff_not_mem _ _ _ hvseen]
      rw [ih (strLower ⟨m⟩ :: seen)]
      rw [List.toFinset_cons]
    · rw [if_neg h1]
      rw [ih seen]
      simp only [List.map_cons, List.filter_cons]
      by_cases h2 : na.contains (_normalise_hex (strLower ⟨m⟩))
      · rw [if_neg (by simpa using h2)]
      · have hseen : seen.contains (strLower ⟨m⟩) := by
          rcases not_and_or.mp h1 with hx | hx
          · exact absurd h2 (by simpa using hx)
          · simpa using hx
        rw [if_pos (by simpa using h2)]
        rw [List.toFinset_cons]
        rw [Finset.insert_sdiff_of_mem]
        rw [List.mem_toFinset]
        simpa [List.contains] using hseen

/-- The token set used in the colour-rule scenarios: both `#abc` and
    `#aabbcc` are outside its approved palette. -/
def tokensC5 : Dict := [("primary_color", "#123456"), ("secondary_color", "#654321")]

set_option maxHeartbeats 800000 in
/-- C5 counterexample: the source `"#ABC #abc"`, with both literals
    disallowed, yields exactly ONE `UNAUTHORISED_HEX_COLOR` diagnostic, not
    two: the dedup key is `match.group(0).lower()`, so `#ABC` and `#abc`
    collide. -/
theorem C5_counterexample :
    validate_colors "#ABC #abc" tokensC5 = some [msgHexColor "#ABC" "#123456" "#654321"] ∧
      [msgHexColor "#ABC" "#123456" "#654321"].length = 1 := by
  constructor
  · simp +decide [validate_colors, hexMatches, List.takeWhile, namedMatches, hexErrsAux,
      hexDigitCh, noWordAhead, wordChar, dictGet, hasFuncColor, searchB, funcAt,
      funcNames, matchCI, spacesThenParen, strLower, lowerChar, _normalise_hex,
      normalisedApproved, approvedHex, shortAlias, findNamed, namedColorsList, pySpace]
  · decide

set_option maxHeartbeats 1600000 in
/-- C5 (amended): the hex-allowlist rule emits one `UNAUTHORISED_HEX_COLOR`
    diagnostic per distinct LOWERCASED matched literal text that is
    disallowed — the dedup key is the lowercased matched substring, not the
    raw text and not the normalized value. So `#ABC` and `#abc` (same
    lowercase) yield one diagnostic, while `#abc` and `#aabbcc` (different
    lowercase, same normalized value) yield one each. -/
theorem C5_dedup_lowercase :
    (∀ (p s : String) (na : List String) (ms : List (List Char)),
        (hexErrsAux p s na [] ms).length =
          ((ms.map (fun m => strLower ⟨m⟩)).filter
              (fun v => !(na.contains (_normalise_hex v)))).toFinset.card) ∧
      validate_colors "#ABC #abc" tokensC5 = some [msgHexColor "#ABC" "#123456" "#654321"] ∧
      validate_colors "#abc #aabbcc" tokensC5 =
        some [msgHexColor "#abc" "#123456" "#654321",
          msgHexColor "#aabbcc" "#123456" "#654321"] := by
  refine ⟨?_, ?_, ?_⟩
  · intro p s na ms
    rw [hexErrsAux_length]
    simp
  · simp +decide [validate_colors, hexMatches, List.takeWhile, namedMatches, hexErrsAux,
      hexDigitCh, noWordAhead, wordChar, dictGet, hasFuncColor, searchB, funcAt,
      funcNames, matchCI, spacesThenParen, strLower, lowerChar, _normalise_hex,
      normalisedApproved, approvedHex, shortAlias, findNamed, namedColorsList, pySpace]
  · simp +decide [validate_colors, hexMatches, List.takeWhile, namedMatches, hexErrsAux,
      hexDigitCh, noWordAhead, wordChar, dictGet, hasFuncColor, searchB, funcAt,
      funcNames, matchCI, spacesThenParen, strLower, lowerChar, _normalise_hex,
      normalisedApproved, approvedHex, shortAlias, findNamed, namedColorsList, pySpace]

theorem length_eq_four_exists {l : List Char} (h : l.length = 4) :
    ∃ a b c d, l = [a, b, c, d] := by
  match l with
  | [a, b, c, d] => exact ⟨a, b, c, d, rfl⟩
  | [] | [_] | [_, _] | [_, _, _] => simp at h
  | _ :: _ :: _ :: _ :: _ :: _ => simp at h

theorem normalise_hex_four (c0 c1 c2 c3 : Char) :
    _normalise_hex ⟨[c0, c1, c2, c3]⟩ =
      ⟨['#', lowerChar c1, lowerChar c1, lowerChar c2, lowerChar c2,
        lowerChar c3, lowerChar c3]⟩ := by
  simp [_normalise_hex, strLower]

theorem normalise_hex_other (x : String) (h : x.data.length ≠ 4) :
    _normalise_hex x = strLower x := by
  rw [_normalise_hex]
  split
  · next c0 c1 c2 c3 heq =>
    exfalso
    apply h
    have hlen := congrArg List.length heq
    rw [strLower_length] at hlen
    simpa using hlen
  · rfl

theorem normalise_hex_idem (x : String) :
    _normalise_hex (_normalise_hex x) = _normalise_hex x := by
  by_cases h : x.data.length = 4
  · obtain ⟨a, b, c, d, hx⟩ := length_eq_four_exists h
    have hx2 : x = ⟨[a, b, c, d]⟩ := by
      cases x
      exact congrArg String.mk hx
    subst hx2
    rw [normalise_hex_four]
    rw [normalise_hex_other _ (by simp)]
    have hp : lowerChar '#' = '#' := by decide
    simp [strLower, lowerChar_idem, hp]
  · rw [normalise_hex_other x h]
    rw [normalise_hex_other (strLower x) (by rw [strLower_length]; exact h)]
    exact strLower_idem x

/-- C6 counterexample: `#aabbccdd` is a hex literal the scanner matches (8
    digits), yet `_normalise_hex` leaves it 9 characters long — it is not
    mapped to lowercase 6-digit form; only 3-digit shorthands are expanded. -/
theorem C6_counterexample :
    hexMatches "#aabbccdd ".data = ["#aabbccdd".data] ∧
      _normalise_hex "#aabbccdd" = "#aabbccdd" ∧
      "#aabbccdd".data.length = 9 := by
  refine ⟨?_, by decide, by decide⟩
  simp +decide [hexMatches, List.takeWhile, hexDigitCh, noWordAhead, wordChar]

/-- C6 (amended): hex normalization is idempotent and identifies `#fff` with
    `#ffffff`; a 4-character literal (`#` + 3 digits) is mapped to lowercase
    6-digit form, while every literal of any other length (4–8 digit matches
    included) is only lowercased, keeping its length. -/
theorem C6_normalise :
    (∀ x : String, _normalise_hex (_normalise_hex x) = _normalise_hex x) ∧
      _normalise_hex "#fff" = _normalise_hex "#ffffff" ∧
      (∀ c0 c1 c2 c3 : Char, _normalise_hex ⟨[c0, c1, c2, c3]⟩ =
        ⟨['#', lowerChar c1, lowerChar c1, lowerChar c2, lowerChar c2,
          lowerChar c3, lowerChar c3]⟩) ∧
      (∀ x : String, x.data.length ≠ 4 → _normalise_hex x = strLower x) :=
  ⟨normalise_hex_idem, by decide, normalise_hex_four, normalise_hex_other⟩

/-- C6 witness: a 5-character literal is only lowercased. -/
theorem C6_witness : _normalise_hex "#ABCD" = strLower "#ABCD" :=
  C6_normalise.2.2.2 "#ABCD" (by decide)

/-- C8: on any source string whatsoever, and any token dictionary containing
    the five required keys, `validate_component` returns a report (`some r`)
    — no exception escapes; every issue the checkers detect is inside the
    report's lists. (In this embedding `none` models a propagated exception,
    and all checker functions are total.) -/
theorem C8_never_raises (code : String) (tokens : Dict)
    (h1 : (dictGet tokens "primary_color").isSome = true)
    (h2 : (dictGet tokens "secondary_color").isSome = true)
    (h3 : (dictGet tokens "border_radius").isSome = true)
    (h4 : (dictGet tokens "font_family").isSome = true)
    (h5 : (dictGet tokens "spacing").isSome = true) :
    ∃ r : Report, validate_component code tokens = some r := by
  obtain ⟨p, hp⟩ := Option.isSome_iff_exists.mp h1
  obtain ⟨sc, hsc⟩ := Option.isSome_iff_exists.mp h2
  obtain ⟨rd, hrd⟩ := Option.isSome_iff_exists.mp h3
  obtain ⟨fo, hfo⟩ := Option.isSome_iff_exists.mp h4
  have hv1 : ∃ e1, validate_design_tokens code tokens = some e1 := by
    rw [validate_design_tokens]
    simp [hp, hrd, hfo]
  have hv2 : ∃ e2, validate_colors code tokens = some e2 := by
    rw [validate_colors]
    simp [hp, hsc]
  obtain ⟨e1, he1⟩ := hv1
  obtain ⟨e2, he2⟩ := hv2
  rw [validate_component]
  simp [he1, he2]

/-- C8 witness: a concrete adversarial source with the complete fixture
    dictionary returns a report. -/
theorem C8_witness :
    ∃ r : Report, validate_component ")] ' ( \\" tokensFix = some r :=
  C8_never_raises ")] ' ( \\" tokensFix (by decide) (by decide) (by decide)
    (by decide) (by decide)

/-- The fixture dictionary with no `spacing` key. -/
def tokensNoSpacing : Dict :=
  [("primary_color", "#123456"), ("secondary_color", "#654321"),
   ("border_radius", "8px"), ("font_family", "Inter")]

/-- The fixture dictionary with no `border_radius` key. -/
def tokensNoRadius : Dict :=
  [("primary_color", "#123456"), ("secondary_color", "#654321"),
   ("font_family", "Inter"), ("spacing", "16px")]

/-- C9 counterexample: `spacing` is one of the five required keys, yet a
    token set missing it does NOT make `validate_component` raise — the
    spacing token is read with `tokens.get("spacing", "")`, the warning check
    is silently skipped, and a report is returned. -/
theorem C9_counterexample :
    dictGet tokensNoSpacing "spacing" = none ∧
      (validate_component "" tokensNoSpacing).isSome = true := by
  constructor
  · decide
  · simp +decide [validate_component, validate_design_tokens, validate_colors,
      validate_structure, validate_syntax, _warn_spacing_token, scanAux, hexMatches,
      namedMatches, dictGet, dictGetD]

/-- C9 (amended): a token set missing any of the four keys the validator
    reads unconditionally — `primary_color`, `secondary_color`,
    `border_radius`, `font_family` — makes `validate_component` propagate the
    failure (`none`), producing no report at all, hence no diagnostic;
    a missing `spacing` key alone is tolerated. -/
theorem C9_missing_key_raises (code : String) (tokens : Dict)
    (h : dictGet tokens "primary_color" = none ∨ dictGet tokens "secondary_color" = none ∨
      dictGet tokens "border_radius" = none ∨ dictGet tokens "font_family" = none) :
    validate_component code tokens = none := by
  rcases h with h | h | h | h
  · rw [validate_component, validate_design_tokens]
    simp [h]
  · have hc : validate_colors code tokens = none := by
      rw [validate_colors]
      cases hp : dictGet tokens "primary_color" with
      | none => simp
      | some p => simp [h]
    rw [validate_component]
    cases hv1 : validate_design_tokens code tokens with
    | none => simp
    | some e1 => simp [hc]
  · rw [validate_component, validate_design_tokens]
    cases hp : dictGet tokens "primary_color" with
    | none => simp
    | some p => simp [h]
  · rw [validate_component, validate_design_tokens]
    cases hp : dictGet tokens "primary_color" with
    | none => simp
    | some p =>
      cases hr : dictGet tokens "border_radius" with
      | none => simp
      | some rd => simp [h]

/-- C9 witness: a dictionary missing `border_radius` makes the validator
    propagate the failure. -/
theorem C9_witness : validate_component "" tokensNoRadius = none :=
  C9_missing_key_raises "" tokensNoRadius (Or.inr (Or.inr (Or.inl (by decide))))

/-! ## Diagnostic category tags (for the prefix claim) -/

/-- The eight error category tags of the validator. -/
def errorTags : List String :=
  ["MISSING_PRIMARY_COLOR", "MISSING_BORDER_RADIUS", "MISSING_FONT_FAMILY",
   "UNAUTHORIZED_COLOR_FORMAT", "UNAUTHORISED_HEX_COLOR", "UNAUTHORISED_NAMED_COLOR",
   "INCOMPLETE_STRUCTURE", "SYNTAX_ERROR"]

/-- An error string carries one of the eight category tags, colon included,
    as a prefix. -/
def TaggedError (e : String) : Prop :=
  ∃ t ∈ errorTags, (t ++ ":").data <+: e.data

theorem mem_ite_nil_right {e m : String} {b : Prop} [Decidable b]
    (h : e ∈ if b then ([] : List String) else [m]) : e = m := by
  split at h
  · simp at h
  · simpa using h

theorem mem_ite_nil_left {e m : String} {b : Prop} [Decidable b]
    (h : e ∈ if b then [m] else ([] : List String)) : e = m := by
  split at h
  · simpa using h
  · simp at h

theorem tagged_missing_primary (p : String) : TaggedError (msgMissingPrimary p) := by
  refine ⟨"MISSING_PRIMARY_COLOR", by decide, ?_⟩
  unfold msgMissingPrimary
  repeat apply prefix_append_right
  decide

theorem tagged_missing_radius (p : String) : TaggedError (msgMissingRadius p) := by
  refine ⟨"MISSING_BORDER_RADIUS", by decide, ?_⟩
  unfold msgMissingRadius
  repeat apply prefix_append_right
  decide

theorem tagged_missing_font (p : String) : TaggedError (msgMissingFont p) := by
  refine ⟨"MISSING_FONT_FAMILY", by decide, ?_⟩
  unfold msgMissingFont
  repeat apply prefix_append_right
  decide

theorem tagged_func_color (p s : String) : TaggedError (msgFuncColor p s) := by
  refine ⟨"UNAUTHORIZED_COLOR_FORMAT", by decide, ?_⟩
  unfold msgFuncColor
  repeat apply prefix_append_right
  decide

theorem tagged_hex_color (l p s : String) : TaggedError (msgHexColor l p s) := by
  refine ⟨"UNAUTHORISED_HEX_COLOR", by decide, ?_⟩
  unfold msgHexColor
  repeat apply prefix_append_right
  decide

theorem tagged_named_color (n : String) : TaggedError (msgNamedColor n) := by
  refine ⟨"UNAUTHORISED_NAMED_COLOR", by decide, ?_⟩
  unfold msgNamedColor
  repeat apply prefix_append_right
  decide

theorem tagged_structure_msgs :
    TaggedError msgNoDecorator ∧ TaggedError msgNoExportClass ∧
      TaggedError msgTruncated ∧ TaggedError msgEmptyClass := by
  refine ⟨⟨"INCOMPLETE_STRUCTURE", by decide, by decide⟩,
    ⟨"INCOMPLETE_STRUCTURE", by decide, by decide⟩,
    ⟨"INCOMPLETE_STRUCTURE", by decide, by decide⟩,
    ⟨"INCOMPLETE_STRUCTURE", by decide, by decide⟩⟩

theorem tagged_unexpected (c : Char) (line : Nat) : TaggedError (msgUnexpected c line) := by
  refine ⟨"SYNTAX_ERROR", by decide, ?_⟩
  unfold msgUnexpected
  repeat apply prefix_append_right
  decide

theorem tagged_mismatch (c : Char) (line : Nat) (o : Char) (ol : Nat) :
    TaggedError (msgMismatch c line o ol) := by
  refine ⟨"SYNTAX_ERROR", by decide, ?_⟩
  unfold msgMismatch
  repeat apply prefix_append_right
  decide

theorem tagged_unclosed (o : Char) (ol : Nat) : TaggedError (msgUnclosed o ol) := by
  refine ⟨"SYNTAX_ERROR", by decide, ?_⟩
  unfold msgUnclosed
  repeat apply prefix_append_right
  decide

theorem vdt_tagged (code : String) (tokens : Dict) (e1 : List String)
    (h : validate_design_tokens code tokens = some e1) :
    ∀ e ∈ e1, TaggedError e := by
  cases hp : dictGet tokens "primary_color" with
  | none => rw [validate_design_tokens] at h; simp [hp] at h
  | some p =>
    cases hr : dictGet tokens "border_radius" with
    | none => rw [validate_design_tokens] at h; simp [hp, hr] at h
    | some rd =>
      cases hf : dictGet tokens "font_family" with
      | none => rw [validate_design_tokens] at h; simp [hp, hr, hf] at h
      | some fo =>
        rw [validate_design_tokens] at h
        simp only [hp, hr, hf, Option.some_bind] at h
        simp at h
        intro e he
        rw [← h] at he
        rcases List.mem_append.mp he with h1 | h23
        · rw [mem_ite_nil_right h1]
          exact tagged_missing_primary p
        · rcases List.mem_append.mp h23 with h2 | h3
          · rw [mem_ite_nil_right h2]
            exact tagged_missing_radius rd
          · rw [mem_ite_nil_right h3]
            exact tagged_missing_font fo

theorem hexErrsAux_tagged (p s : String) (na : List String) :
    ∀ (ms : List (List Char)) (seen : List String) (e : String),
      e ∈ hexErrsAux p s na seen ms → TaggedError e := by
  intro ms
  induction ms with
  | nil => intro seen e he; simp [hexErrsAux] at he
  | cons m ms ih =>
    intro seen e he
    rw [hexErrsAux] at he
    split at he
    · rcases List.mem_cons.mp he with h1 | h2
      · rw [h1]; exact tagged_hex_color _ p s
      · exact ih _ e h2
    · exact ih _ e he

theorem colors_tagged (code : String) (tokens : Dict) (e2 : List String)
    (h : validate_colors code tokens = some e2) :
    ∀ e ∈ e2, TaggedError e := by
  cases hp : dictGet tokens "primary_color" with
  | none => rw [validate_colors] at h; simp [hp] at h
  | some p =>
    cases hs : dictGet tokens "secondary_color" with
    | none => rw [validate_colors] at h; simp [hp, hs] at h
    | some sc =>
      rw [validate_colors] at h
      simp only [hp, hs, Option.some_bind] at h
      simp at h
      intro e he
      rw [← h] at he
      rcases List.mem_append.mp he with h1 | h23
      · rw [mem_ite_nil_left h1]
        exact tagged_func_color p sc
      · rcases List.mem_append.mp h23 with h2 | h3
        · exact hexErrsAux_tagged p sc _ _ _ e h2
        · obtain ⟨m, -, hm⟩ := List.mem_filterMap.mp h3
          split at hm
          · simp at hm
          · simp only [Option.some.injEq] at hm
            rw [← hm]
            exact tagged_named_color _

theorem structure_tagged (code : String) :
    ∀ e ∈ validate_structure code, TaggedError e := by
  intro e he
  rw [validate_structure] at he
  rcases List.mem_append.mp he with h1 | h234
  · rw [mem_ite_nil_right h1]; exact tagged_structure_msgs.1
  · rcases List.mem_append.mp h234 with h2 | h34
    · rw [mem_ite_nil_right h2]; exact tagged_structure_msgs.2.1
    · rcases List.mem_append.mp h34 with h3 | h4
      · rw [mem_ite_nil_left h3]; exact tagged_structure_msgs.2.2.1
      · rw [mem_ite_nil_left h4]; exact tagged_structure_msgs.2.2.2

theorem syntax_tagged :
    ∀ (cs : List Char) (line : Nat) (stack : List (Char × Nat)) (e : String),
      e ∈ scanAux cs line stack → TaggedError e := by
  intro cs line stack
  induction cs, line, stack using scanAux.induct with
  | case1 line stack =>
    intro e he
    rw [scanAux] at he
    obtain ⟨⟨o, ol⟩, -, hm⟩ := List.mem_map.mp he
    rw [← hm]
    exact tagged_unclosed o ol
  | case2 rest line stack ih =>
    intro e he
    rw [scanAux, if_pos rfl] at he
    exact ih e he
  | case3 c rest line stack h1 h2 ih =>
    intro e he
    rw [scanAux, if_neg h1, if_pos h2] at he
    exact ih e he
  | case4 c rest line stack h1 h2 h3 ih =>
    intro e he
    rw [scanAux, if_neg h1, if_neg h2, if_pos h3] at he
    exact ih e he
  | case5 c rest line stack h1 h2 h3 h4 ih =>
    intro e he
    rw [scanAux, if_neg h1, if_neg h2, if_neg h3, if_pos h4] at he
    exact ih e he
  | case6 c rest line stack h1 h2 h3 h4 h5 ih =>
    intro e he
    rw [scanAux, if_neg h1, if_neg h2, if_neg h3, if_neg h4, if_pos h5] at he
    exact ih e he
  | case7 c rest line h1 h2 h3 h4 h5 h6 ih =>
    intro e he
    rw [scanAux, if_neg h1, if_neg h2, if_neg h3, if_neg h4, if_neg h5,
      if_pos h6, if_pos rfl] at he
    rcases List.mem_cons.mp he with hh | ht
    · rw [hh]; exact tagged_unexpected c line
    · exact ih e ht
  | case8 c rest line stack h1 h2 h3 h4 h5 h6 h7 h8 ih =>
    intro e he
    rw [scanAux, if_neg h1, if_neg h2, if_neg h3, if_neg h4, if_neg h5,
      if_pos h6, if_neg h7, if_pos h8] at he
    rcases List.mem_cons.mp he with hh | ht
    · rw [hh]; exact tagged_mismatch c line _ _
    · exact ih e ht
  | case9 c rest line stack h1 h2 h3 h4 h5 h6 h7 h8 ih =>
    intro e he
    rw [scanAux, if_neg h1, if_neg h2, if_neg h3, if_neg h4, if_neg h5,
      if_pos h6, if_neg h7, if_neg h8] at he
    exact ih e he
  | case10 c rest line stack h1 h2 h3 h4 h5 h6 ih =>
    intro e he
    rw [scanAux, if_neg h1, if_neg h2, if_neg h3, if_neg h4, if_neg h5,
      if_neg h6] at he
    exact ih e he

theorem spacing_tagged (code : String) (tokens : Dict) :
    ∀ w ∈ _warn_spacing_token code tokens, ("SPACING_SUGGESTION:").data <+: w.data := by
  intro w hw
  rw [_warn_spacing_token] at hw
  rw [mem_ite_nil_left hw]
  unfold msgSpacing
  repeat apply prefix_append_right
  decide

/-- C10: every string in the errors list of a returned report begins with one
    of the eight error category tags followed by `:` (`TaggedError`), and
    every string in the warnings list begins with `SPACING_SUGGESTION:`. -/
theorem C10_diagnostic_prefixes (code : String) (tokens : Dict) (r : Report)
    (h : validate_component code tokens = some r) :
    (∀ e ∈ r.errors, TaggedError e) ∧
      (∀ w ∈ r.warnings, ("SPACING_SUGGESTION:").data <+: w.data) := by
  cases hv1 : validate_design_tokens code tokens with
  | none => rw [validate_component] at h; simp [hv1] at h
  | some e1 =>
    cases hv2 : validate_colors code tokens with
    | none => rw [validate_component] at h; simp [hv1, hv2] at h
    | some e2 =>
      rw [validate_component] at h
      simp only [hv1, hv2] at h
      simp at h
      subst h
      constructor
      · intro e he
        simp only [List.append_assoc] at he
        rcases List.mem_append.mp he with h1 | h234
        · exact vdt_tagged code tokens e1 hv1 e h1
        · rcases List.mem_append.mp h234 with h2 | h34
          · exact colors_tagged code tokens e2 hv2 e h2
          · rcases List.mem_append.mp h34 with h3 | h4
            · exact structure_tagged code e h3
            · rw [ validate_syntax] at h4
              exact syntax_tagged code.data 1 [] e h4
      · intro w hw
        exact spacing_tagged code tokens w hw

/-- C10 witness: a concrete report whose diagnostics all carry their tags. -/
theorem C10_witness :
    ∃ r : Report, validate_component "" tokensFix = some r ∧
      ((∀ e ∈ r.errors, TaggedError e) ∧
        (∀ w ∈ r.warnings, ("SPACING_SUGGESTION:").data <+: w.data)) := by
  have hs : (validate_component "" tokensFix).isSome = true := by
    simp +decide [validate_component, validate_design_tokens, validate_colors,
      validate_structure, validate_syntax, _warn_spacing_token, scanAux, hexMatches,
      namedMatches, dictGet, dictGetD]
  obtain ⟨r, hr⟩ := Option.isSome_iff_exists.mp hs
  exact ⟨r, hr, C10_diagnostic_prefixes "" tokensFix r hr⟩
